import Mathlib

/-!
Verification of the glide-cli client (ngpal/glide-cli) against its
natural-language specification.  The Rust sources embedded here are
src/main.rs and src/src/main.rs (two evolutionary variants of the client);
the shared utils crate (utils::commands, utils::data, utils::protocol) is
not part of the repository snapshot, so the handful of items it provides
(Command, ServerResponse, CHUNK_SIZE) are modelled from the spec, each
marked by a doc comment starting with "Modelled from the spec".
Machine integers (u64, usize) are modelled as Nat; all sizes in the client
are counts of bytes read or written and never overflow in practice.
-/

set_option autoImplicit false

namespace Glide

/-- ASCII alphanumeric, the character class [a-zA-Z0-9] of the Rust regexes. -/
def rustAlnum (c : Char) : Bool :=
  (('a' ≤ c && c ≤ 'z') || ('A' ≤ c && c ≤ 'Z') || ('0' ≤ c && c ≤ '9'))

/-- Whitespace characters: the ASCII part of the regex class \s and of
Rust str::trim.  (The Unicode-only whitespace code points never occur in
the protocol text and are omitted.) -/
def rustWsChar (c : Char) : Bool :=
  (c = ' ' || c = '\t' || c = '\n' || c = '\x0b' || c = '\x0c' || c = '\r')

/-- str::trim on a character list: remove leading and trailing whitespace. -/
def rustTrim (l : List Char) : List Char :=
  ((l.dropWhile rustWsChar).reverse.dropWhile rustWsChar).reverse

/-- The language of the username regex
^[a-zA-Z0-9](?:[a-zA-Z0-9\.]{0,8}[a-zA-Z0-9])?$ from validate_username
(src/main.rs lines 267-270 and src/src/main.rs lines 179-182): one
alphanumeric character, optionally followed by zero to eight characters
that are alphanumeric or a period and a final alphanumeric character. -/
def usernameRe : List Char → Bool
  | [] => false
  | [c] => rustAlnum c
  | c :: d :: l =>
    rustAlnum c && (d :: l).length ≤ 9 &&
      (d :: l).dropLast.all (fun x => rustAlnum x || x = '.') &&
      (match (d :: l).getLast? with
       | some x => rustAlnum x
       | none => false)

/-- fn validate_username(username: &str) -> bool (src/main.rs lines
267-270): Regex::new of the pattern above, then is_match. -/
def validate_username (username : String) : Bool :=
  usernameRe username.data

/-! ## Command grammar (validate_command, src/src/main.rs lines 184-196)

The five anchored regexes are embedded with their backtracking semantics:
a string matches a concatenation when some decomposition satisfies the
pieces, decided here by enumerating split positions. -/

/-- All decompositions l = a ++ b, as pairs (a, b). -/
def allSplits (l : List Char) : List (List Char × List Char) :=
  (List.range (l.length + 1)).map (fun i => (l.take i, l.drop i))

/-- Match \s+ followed by a continuation. -/
def seqWsPlus (k : List Char → Bool) (l : List Char) : Bool :=
  (allSplits l).any (fun p => !p.1.isEmpty && p.1.all rustWsChar && k p.2)

/-- Match .+ (any characters except newline, at least one) followed by a
continuation. -/
def seqDotPlus (k : List Char → Bool) (l : List Char) : Bool :=
  (allSplits l).any (fun p => !p.1.isEmpty && p.1.all (fun c => c ≠ '\n') && k p.2)

/-- Match \S+$ : a nonempty run of non-whitespace ending the string. -/
def tailNonWs (l : List Char) : Bool :=
  !l.isEmpty && l.all (fun c => !rustWsChar c)

/-- Match @\S+$ . -/
def atNonWs (l : List Char) : Bool :=
  match l with
  | '@' :: rest => tailNonWs rest
  | _ => false

/-- Strip a literal from the front of the input, or fail. -/
def stripLit : List Char → List Char → Option (List Char)
  | [], l => some l
  | _ :: _, [] => none
  | p :: ps, c :: cs => if p = c then stripLit ps cs else none

/-- The regex ^glide\s+.+\s+@\S+$ . -/
def glideReMatch (l : List Char) : Bool :=
  match stripLit "glide".data l with
  | some r => seqWsPlus (seqDotPlus (seqWsPlus atNonWs)) r
  | none => false

/-- The regex ^ok\s+@\S+$ . -/
def okReMatch (l : List Char) : Bool :=
  match stripLit "ok".data l with
  | some r => seqWsPlus atNonWs r
  | none => false

/-- The regex ^no\s+@\S+$ . -/
def noReMatch (l : List Char) : Bool :=
  match stripLit "no".data l with
  | some r => seqWsPlus atNonWs r
  | none => false

/-- pub fn validate_command(input: &str) -> bool (src/src/main.rs lines
184-196): the input matches ^list$, ^reqs$, ^glide\s+.+\s+@\S+$,
^ok\s+@\S+$ or ^no\s+@\S+$ . -/
def validate_command (input : String) : Bool :=
  (input.data = "list".data) || (input.data = "reqs".data) ||
    glideReMatch input.data || okReMatch input.data || noReMatch input.data

/-! ## Command model

utils::commands::Command is not part of the snapshot. -/

/-- Modelled from the spec: utils::commands::Command, the tagged variant
set of section 3 of the spec (Glide with path and recipient, Ok, No,
List, Requests, Unknown with the raw text). -/
inductive Command where
  | Glide (path : String) (recipient : String)
  | Ok (target : String)
  | No (target : String)
  | List
  | Requests
  | Unknown (raw : String)
deriving DecidableEq

/-- Whitespace-separated tokens of a character list. -/
def wordsOf (l : List Char) : List (List Char) :=
  (l.splitOnP rustWsChar).filter (fun w => !w.isEmpty)

/-- Glide branch of command parsing: the input starts with the word
glide, its trailing whitespace-free token is @-prefixed and names the
recipient, and everything in between, trimmed, is the (nonempty) path. -/
def glideTail (l : List Char) (input : String) : Command :=
  match stripLit "glide".data l with
  | none => Command.Unknown input
  | some r =>
    let tokRev := r.reverse.takeWhile (fun c => !rustWsChar c)
    match tokRev.reverse with
    | '@' :: u =>
      if u.isEmpty then Command.Unknown input
      else
        let path := rustTrim ((r.reverse.drop tokRev.length).reverse)
        if path.isEmpty then Command.Unknown input
        else Command.Glide (String.mk path) (String.mk u)
    | _ => Command.Unknown input

/-- Modelled from the spec: Command::parse (utils crate, absent from
src/), following section 4.2 of the spec: list and reqs are exact
matches; glide takes the trailing @-token as recipient and the trimmed
middle as path (which may contain spaces); ok and no take a single
@-prefixed user token; anything else is Unknown with the raw text. -/
def Command.parse (input : String) : Command :=
  let l := input.data
  if l = "list".data then Command.List
  else if l = "reqs".data then Command.Requests
  else
    match wordsOf l with
    | [w1, '@' :: u] =>
      if w1 = "ok".data ∧ ¬u.isEmpty then Command.Ok (String.mk u)
      else if w1 = "no".data ∧ ¬u.isEmpty then Command.No (String.mk u)
      else if w1 = "glide".data then glideTail l input
      else Command.Unknown input
    | w1 :: _ :: _ =>
      if w1 = "glide".data then glideTail l input
      else Command.Unknown input
    | _ => Command.Unknown input

/-- Modelled from the spec: Command::to_string (utils crate, absent from
src/), the surface form used by the round-trip law of section 8 and by
validate_command in src/src/main.rs line 59. -/
def Command.toText : Command → String
  | Command.Glide path u => "glide " ++ path ++ " @" ++ u
  | Command.Ok t => "ok @" ++ t
  | Command.No t => "no @" ++ t
  | Command.List => "list"
  | Command.Requests => "reqs"
  | Command.Unknown raw => raw

/-- What one iteration of the src/src/main.rs session loop (lines 40-76)
does with an input line before and up to the point where bytes are first
written to the connection. -/
inductive SendDecision where
  | exitDisconnect
  | rejectedLocally
  | rejectedFileCheck
  | sent (c : Command)
deriving DecidableEq

/-- The front half of the src/src/main.rs loop body (lines 47-76): exit
is handled first (and writes a ClientDisconnected frame), then the input
is parsed, then validate_command is applied to the round-tripped surface
form and a failure continues the loop with nothing written, then a glide
command whose path is not an existing file continues the loop with
nothing written, and only then is the command transmitted.  fileOk
abstracts the filesystem check Path::new(path).is_file(). -/
def clientSendStep (fileOk : String → Bool) (input : String) : SendDecision :=
  if input = "exit" then SendDecision.exitDisconnect
  else
    let command := Command.parse input
    if validate_command (Command.toText command) = false then
      SendDecision.rejectedLocally
    else
      match command with
      | Command.Glide path _ =>
        if fileOk path then SendDecision.sent command
        else SendDecision.rejectedFileCheck
      | c => SendDecision.sent c

/-! ## Bytes, UTF-8 lossy decoding and byte-index slicing

src/main.rs builds server responses with
String::from_utf8_lossy(&response)[..bytes_read] (line 264) and metadata
with String::from_utf8_lossy(&buffer[..bytes_read]) (line 148).  Bytes
are modelled as Nat (each < 256 in every reachable state).  utf8Lossy
maps a byte list to the byte list of the lossily decoded string,
following the Rust substitution-of-maximal-subparts policy: each maximal
invalid subpart (the longest valid prefix of a sequence, or a single
invalid lead byte) is replaced by one U+FFFD, whose UTF-8 encoding is
EF BF BD. -/

/-- A UTF-8 continuation byte, 0x80 to 0xBF. -/
def isCont (b : Nat) : Bool := 0x80 ≤ b && b ≤ 0xBF

/-- Admissible second byte of a three-byte sequence headed by b
(0xE0 needs 0xA0-0xBF, 0xED needs 0x80-0x9F, the rest 0x80-0xBF). -/
def cont3ok (b c : Nat) : Bool :=
  if b = 0xE0 then 0xA0 ≤ c && c ≤ 0xBF
  else if b = 0xED then 0x80 ≤ c && c ≤ 0x9F
  else 0x80 ≤ c && c ≤ 0xBF

/-- Admissible second byte of a four-byte sequence headed by b
(0xF0 needs 0x90-0xBF, 0xF4 needs 0x80-0x8F, the rest 0x80-0xBF). -/
def cont4ok (b c : Nat) : Bool :=
  if b = 0xF0 then 0x90 ≤ c && c ≤ 0xBF
  else if b = 0xF4 then 0x80 ≤ c && c ≤ 0x8F
  else 0x80 ≤ c && c ≤ 0xBF

/-- UTF-8 encoding of U+FFFD, the replacement character. -/
def replChar : List Nat := [0xEF, 0xBF, 0xBD]

/-- Decode one unit at lead byte b with remaining input l: the pair of
the emitted output bytes (the unit itself when valid, the replacement
character for a maximal invalid subpart) and the unconsumed rest. -/
def utf8Step (b : Nat) (l : List Nat) : List Nat × List Nat :=
  if b ≤ 0x7F then ([b], l)
  else if b < 0xC2 then (replChar, l)
  else if b ≤ 0xDF then
    match l with
    | [] => (replChar, [])
    | c :: l2 => if isCont c then ([b, c], l2) else (replChar, l)
  else if b ≤ 0xEF then
    match l with
    | [] => (replChar, [])
    | c :: l2 =>
      if cont3ok b c then
        match l2 with
        | [] => (replChar, [])
        | d :: l3 => if isCont d then ([b, c, d], l3) else (replChar, l2)
      else (replChar, l)
  else if b ≤ 0xF4 then
    match l with
    | [] => (replChar, [])
    | c :: l2 =>
      if cont4ok b c then
        match l2 with
        | [] => (replChar, [])
        | d :: l3 =>
          if isCont d then
            match l3 with
            | [] => (replChar, [])
            | e :: l4 => if isCont e then ([b, c, d, e], l4) else (replChar, l3)
          else (replChar, l2)
      else (replChar, l)
  else (replChar, l)

/-- The unit at lead byte b with remaining input l is a complete, valid
UTF-8 character. -/
def utf8StepOk (b : Nat) (l : List Nat) : Bool :=
  if b ≤ 0x7F then true
  else if b < 0xC2 then false
  else if b ≤ 0xDF then
    match l with
    | [] => false
    | c :: _ => isCont c
  else if b ≤ 0xEF then
    match l with
    | [] => false
    | c :: l2 =>
      cont3ok b c &&
        (match l2 with
         | [] => false
         | d :: _ => isCont d)
  else if b ≤ 0xF4 then
    match l with
    | [] => false
    | c :: l2 =>
      cont4ok b c &&
        (match l2 with
         | [] => false
         | d :: l3 =>
           isCont d &&
             (match l3 with
              | [] => false
              | e :: _ => isCont e))
  else false

/-- Fuel-indexed lossy decoding; the fuel only serves structural
recursion and is irrelevant once it covers the length of the input. -/
def utf8LossyF : Nat → List Nat → List Nat
  | _, [] => []
  | 0, _ :: _ => []
  | fuel + 1, b :: l => (utf8Step b l).1 ++ utf8LossyF fuel (utf8Step b l).2

/-- The bytes of String::from_utf8_lossy applied to a byte list,
following the Rust substitution-of-maximal-subparts policy. -/
def utf8Lossy (l : List Nat) : List Nat := utf8LossyF l.length l

/-- Fuel-indexed validity check, mirroring utf8LossyF. -/
def utf8ValidF : Nat → List Nat → Bool
  | _, [] => true
  | 0, _ :: _ => false
  | fuel + 1, b :: l => utf8StepOk b l && utf8ValidF fuel (utf8Step b l).2

/-- The byte list is well-formed UTF-8 (str::from_utf8 would succeed). -/
def utf8Valid (l : List Nat) : Bool := utf8ValidF l.length l

/-- str::is_char_boundary as used by the byte-range index s[..i]: the
index is the length of the string, or the byte at the index exists and is
not a continuation byte.  Indexing with a non-boundary index panics. -/
def isCharBoundary (s : List Nat) (i : Nat) : Bool :=
  match s.get? i with
  | some b => !isCont b
  | none => i == s.length

/-! ## Response model and get_server_response (src/main.rs lines 253-265) -/

/-- Decidable equality for Except, used to evaluate Result values. -/
instance exceptDecEq {α β : Type} [DecidableEq α] [DecidableEq β] :
    DecidableEq (Except α β) := fun x y =>
  match x, y with
  | Except.error a, Except.error b =>
    if h : a = b then isTrue (by rw [h])
    else isFalse (by intro he; injection he; exact h (by assumption))
  | Except.ok a, Except.ok b =>
    if h : a = b then isTrue (by rw [h])
    else isFalse (by intro he; injection he; exact h (by assumption))
  | Except.error _, Except.ok _ => isFalse (by intro he; exact Except.noConfusion he)
  | Except.ok _, Except.error _ => isFalse (by intro he; exact Except.noConfusion he)

/-- Modelled from the spec: utils::data::CHUNK_SIZE (utils crate, absent
from src/); its value, 1024, is fixed by the worked examples of section 8
of the spec. -/
def CHUNK_SIZE : Nat := 1024

/-- Modelled from the spec: one entry of IncomingRequests, a pair of
sender and filename (section 3); src/main.rs line 202 reads the fields
from_username and filename. -/
structure GlideRequest where
  from_username : String
  filename : String
deriving DecidableEq

/-- Modelled from the spec: utils::data::ServerResponse (utils crate,
absent from src/), the tagged variant set of section 3. -/
inductive ServerResponse where
  | UsernameOk
  | UsernameTaken
  | UsernameInvalid
  | GlideRequestSent
  | OkSuccess
  | UnknownCommand
  | ConnectedUsers (users : List String)
  | IncomingRequests (reqs : List GlideRequest)
  | Failure (reason : String)
deriving DecidableEq

/-- ASCII bytes of a literal string. -/
def asciiBytes (s : String) : List Nat := s.data.map Char.toNat

/-- A String built from a byte list (one scalar value per byte). -/
def bytesToStr (l : List Nat) : String := String.mk (l.map Char.ofNat)

/-- ASCII whitespace bytes, the characters removed by str::trim in the
metadata path. -/
def wsByte (b : Nat) : Bool :=
  (b = 0x20 || b = 0x09 || b = 0x0A || b = 0x0B || b = 0x0C || b = 0x0D)

/-- str::trim on a byte list. -/
def trimBytes (l : List Nat) : List Nat :=
  ((l.dropWhile wsByte).reverse.dropWhile wsByte).reverse

/-- Modelled from the spec: ServerResponse::from (utils crate, absent
from src/), following section 4.3: the first token, up to a delimiter,
selects the variant tag; the remaining payload is a separated list of
names for ConnectedUsers and of sender-filename pairs for
IncomingRequests; an unrecognized tag degrades to UnknownCommand and is
never an error. -/
def classifyResponse (bytes : List Nat) : ServerResponse :=
  let tok := bytes.takeWhile (fun b => b ≠ 0x20)
  let rest := bytes.drop (tok.length + 1)
  if tok = asciiBytes "UsernameOk" then ServerResponse.UsernameOk
  else if tok = asciiBytes "UsernameTaken" then ServerResponse.UsernameTaken
  else if tok = asciiBytes "UsernameInvalid" then ServerResponse.UsernameInvalid
  else if tok = asciiBytes "GlideRequestSent" then ServerResponse.GlideRequestSent
  else if tok = asciiBytes "OkSuccess" then ServerResponse.OkSuccess
  else if tok = asciiBytes "ConnectedUsers" then
    ServerResponse.ConnectedUsers
      (((rest.splitOn 0x2C).map trimBytes).filter (fun w => !w.isEmpty) |>.map bytesToStr)
  else if tok = asciiBytes "IncomingRequests" then
    ServerResponse.IncomingRequests
      ((rest.splitOn 0x2C).filterMap (fun item =>
        match item.splitOn 0x3A with
        | [a, b] => some (GlideRequest.mk (bytesToStr (trimBytes a)) (bytesToStr (trimBytes b)))
        | _ => none))
  else ServerResponse.UnknownCommand

/-- async fn get_server_response (src/main.rs lines 253-265).  The input
is the byte sequence a read placed into the CHUNK_SIZE zero-initialized
buffer (so its length is bytes_read, at most CHUNK_SIZE).  A zero-byte
read is the ConnectionClosed error.  Otherwise the whole buffer,
including the zero padding, is lossily decoded, and the first bytes_read
BYTES of the decoded string are classified; since the lossy conversion
can change byte offsets, the byte-range index can fall inside a
character, which is a panic, modelled as none. -/
def get_server_response (readData : List Nat) : Option (Except String ServerResponse) :=
  if readData.length = 0 then
    some (Except.error "Connection closed by server")
  else
    let buffer := readData ++ List.replicate (CHUNK_SIZE - readData.length) 0
    let s := utf8Lossy buffer
    if isCharBoundary s readData.length then
      some (Except.ok (classifyResponse (s.take readData.length)))
    else none

/-! ## Metadata sub-frame (src/main.rs lines 146-157) -/

/-- u64::from_str as invoked by parts[1].trim().parse::<u64>(): an
optional leading plus sign, then at least one ASCII digit, with a value
below 2^64; anything else is a parse error. -/
def parseU64 (l : List Nat) : Option Nat :=
  let digits := match l with
    | 0x2B :: rest => rest
    | _ => l
  if digits.isEmpty then none
  else if digits.all (fun b => 0x30 ≤ b && b ≤ 0x39) then
    let v := digits.foldl (fun acc b => acc * 10 + (b - 0x30)) 0
    if v < 2 ^ 64 then some v else none
  else none

/-- Metadata extraction in the Command::Ok branch (src/main.rs lines
146-157): lossily decode the bytes actually read, split on every colon,
fail unless exactly two fields result, trim both, and parse the second
as u64; the file name is the trimmed first field. -/
def extract_metadata (bytes : List Nat) : Except String (List Nat × Nat) :=
  let parts := (utf8Lossy bytes).splitOn 0x3A
  match parts with
  | [p, q] =>
    match parseU64 (trimBytes q) with
    | some n => Except.ok (trimBytes p, n)
    | none => Except.error "invalid file size"
  | _ => Except.error "Invalid metadata format"

/-! ## Download (Command::Ok branch, src/main.rs lines 130-182) -/

/-- The chunk-receiving loop (src/main.rs lines 164-180) over the trace
of successive payload reads: while received < size, take the next read;
a zero-byte read prints a disconnect notice and breaks (flag true);
otherwise its bytes are appended to the file and counted.  The result is
the final total_bytes_received and whether the disconnect notice fired;
none means the trace ran out while the loop still wanted data (a blocked
read, never reached in the proofs below). -/
def downloadLoop (reads : List (List Nat)) (received size : Nat) : Option (Nat × Bool) :=
  match reads with
  | [] => if received < size then none else some (received, false)
  | r :: rest =>
    if received < size then
      if r.length = 0 then some (received, true)
      else downloadLoop rest (received + r.length) size
    else some (received, false)

/-- Outcome of the whole Command::Ok branch. -/
inductive OkOutcome where
  | serverDisconnected
  | invalidMetadata
  | transferComplete (received : Nat) (sawDisconnect : Bool)
deriving DecidableEq

/-- The Command::Ok branch (src/main.rs lines 130-182) on a trace of
reads, the first of which is the metadata read: a zero-byte metadata read
prints Server disconnected and returns Ok (ending the process normally,
serverDisconnected); a metadata frame that fails extract_metadata makes
main return an error (invalidMetadata); otherwise the chunk loop runs
and, however it ends, the branch prints File transfer completed and
falls through to the next loop iteration (transferComplete). -/
def okCommandPath (reads : List (List Nat)) : Option OkOutcome :=
  match reads with
  | [] => none
  | meta :: rest =>
    if meta.length = 0 then some OkOutcome.serverDisconnected
    else
      match extract_metadata meta with
      | Except.error _ => some OkOutcome.invalidMetadata
      | Except.ok (_, size) =>
        (downloadLoop rest 0 size).map (fun p => OkOutcome.transferComplete p.1 p.2)

/-! ## Session dispatcher response handling (src/main.rs lines 67-206) -/

/-- How one iteration of the src/main.rs session loop ends. -/
inductive LoopOutcome where
  | nextIteration
  | exitProcessOk
  | exitProcessErr
deriving DecidableEq

/-- Response handling of the src/main.rs session loop after the command
was sent and the reply classified (lines 69-206).  An UnknownCommand
reply continues the loop for every command.  Otherwise: a Glide reply
other than GlideRequestSent makes main return Ok (exitProcessOk), and a
GlideRequestSent reply runs the upload and continues (local file I/O
assumed healthy); the Ok branch follows okCommandPath with its reads; a
List reply other than ConnectedUsers and a Requests reply other than
IncomingRequests make main return Ok; No and Unknown commands fall
through and continue. -/
def handle_response (cmd : Command) (resp : ServerResponse)
    (reads : List (List Nat)) : Option LoopOutcome :=
  if resp = ServerResponse.UnknownCommand then some LoopOutcome.nextIteration
  else
    match cmd with
    | Command.Glide _ _ =>
      if resp = ServerResponse.GlideRequestSent then some LoopOutcome.nextIteration
      else some LoopOutcome.exitProcessOk
    | Command.Ok _ =>
      match okCommandPath reads with
      | none => none
      | some OkOutcome.serverDisconnected => some LoopOutcome.exitProcessOk
      | some OkOutcome.invalidMetadata => some LoopOutcome.exitProcessErr
      | some (OkOutcome.transferComplete _ _) => some LoopOutcome.nextIteration
    | Command.List =>
      match resp with
      | ServerResponse.ConnectedUsers _ => some LoopOutcome.nextIteration
      | _ => some LoopOutcome.exitProcessOk
    | Command.Requests =>
      match resp with
      | ServerResponse.IncomingRequests _ => some LoopOutcome.nextIteration
      | _ => some LoopOutcome.exitProcessOk
    | _ => some LoopOutcome.nextIteration

/-! ## Handshake (async fn login, src/main.rs lines 212-251) -/

/-- The login loop over the operator input lines (as produced by
read_line, line terminator included) and the classified server replies.
Each iteration clears the outer buffer and reads one raw line into it;
the trimmed shadow is validated, and on failure the loop re-prompts
without transmitting.  On success the trimmed name is transmitted and one
reply is consumed: UsernameOk breaks, anything else re-prompts.  After
the break the function returns the OUTER buffer, that is the raw line,
while the trimmed shadow went out of scope.  The result pairs the
returned string with the transmitted names; none stands for a run that
still waits for input or a reply. -/
def loginGo (lines : List (List Char)) (resps : List ServerResponse)
    (sent : List (List Char)) : Option (List Char × List (List Char)) :=
  match lines with
  | [] => none
  | line :: restLines =>
    let trimmed := rustTrim line
    if usernameRe trimmed = false then loginGo restLines resps sent
    else
      match resps with
      | [] => none
      | r :: restResps =>
        if r = ServerResponse.UsernameOk then some (line, sent ++ [trimmed])
        else loginGo restLines restResps (sent ++ [trimmed])

/-- async fn login (src/main.rs lines 212-251); see loginGo. -/
def login (lines : List (List Char)) (resps : List ServerResponse) :
    Option (List Char × List (List Char)) :=
  loginGo lines resps []

/-! ## Upload (Command::Glide branch, src/main.rs lines 80-128) -/

/-- The chunk count (src/main.rs lines 106-109): file_length / CHUNK_SIZE
plus one when the division leaves a remainder. -/
def chunk_count (file_length : Nat) : Nat :=
  file_length / CHUNK_SIZE + (if file_length % CHUNK_SIZE > 0 then 1 else 0)

/-- The upload loop (src/main.rs lines 112-126) over a file with the
given bytes: it iterates at most the given number of times, each
iteration reading up to CHUNK_SIZE bytes from the current position,
stopping early on a zero-byte read, and writing exactly the bytes read to
the connection.  The result is the list of chunks written. -/
def uploadChunks (file : List Nat) : Nat → List (List Nat)
  | 0 => []
  | k + 1 =>
    let c := file.take CHUNK_SIZE
    if c.isEmpty then []
    else c :: uploadChunks (file.drop CHUNK_SIZE) k

/-- The chunks written by the whole Command::Glide upload (src/main.rs
lines 106-126): the metadata frame declared size = file.length (the
fs::metadata length), and the loop runs chunk_count of that many times. -/
def uploadSent (file : List Nat) : List (List Nat) :=
  uploadChunks file (chunk_count file.length)

/-! ## Helper lemmas -/

/-- The step leaves a rest no longer than its input. -/
theorem utf8Step_snd_length (b : Nat) (l : List Nat) :
    (utf8Step b l).2.length ≤ l.length := by
  unfold utf8Step
  repeat' split
  all_goals simp_all
  all_goals omega

/-- utf8LossyF ignores its fuel on the empty list. -/
theorem utf8LossyF_nil (f : Nat) : utf8LossyF f [] = [] := by
  cases f <;> rfl

/-- Fuel irrelevance for utf8LossyF. -/
theorem utf8LossyF_congr (f1 : Nat) :
    ∀ (f2 : Nat) (l : List Nat), l.length ≤ f1 → l.length ≤ f2 →
      utf8LossyF f1 l = utf8LossyF f2 l := by
  induction f1 with
  | zero =>
    intro f2 l h1 _
    match l with
    | [] => rw [utf8LossyF_nil, utf8LossyF_nil]
    | _ :: _ => simp at h1
  | succ g ih =>
    intro f2 l h1 h2
    match l, f2 with
    | [], _ => rw [utf8LossyF_nil, utf8LossyF_nil]
    | _ :: _, 0 => simp at h2
    | b :: l, f + 1 =>
      simp only [utf8LossyF]
      have hs := utf8Step_snd_length b l
      have heq := ih f (utf8Step b l).2 (by simp at h1; omega) (by simp at h2; omega)
      rw [heq]

/-- Unfolding equation for utf8Lossy on a nonempty list. -/
theorem utf8Lossy_cons (b : Nat) (l : List Nat) :
    utf8Lossy (b :: l) = (utf8Step b l).1 ++ utf8Lossy (utf8Step b l).2 := by
  show utf8LossyF (b :: l).length (b :: l) = _
  simp only [List.length_cons, utf8LossyF]
  rw [utf8LossyF_congr l.length (utf8Step b l).2.length (utf8Step b l).2
    (utf8Step_snd_length b l) (le_refl _)]
  rfl

/-- utf8ValidF ignores its fuel on the empty list. -/
theorem utf8ValidF_nil (f : Nat) : utf8ValidF f [] = true := by
  cases f <;> rfl

/-- Fuel irrelevance for utf8ValidF. -/
theorem utf8ValidF_congr (f1 : Nat) :
    ∀ (f2 : Nat) (l : List Nat), l.length ≤ f1 → l.length ≤ f2 →
      utf8ValidF f1 l = utf8ValidF f2 l := by
  induction f1 with
  | zero =>
    intro f2 l h1 _
    match l with
    | [] => rw [utf8ValidF_nil, utf8ValidF_nil]
    | _ :: _ => simp at h1
  | succ g ih =>
    intro f2 l h1 h2
    match l, f2 with
    | [], _ => rw [utf8ValidF_nil, utf8ValidF_nil]
    | _ :: _, 0 => simp at h2
    | b :: l, f + 1 =>
      simp only [utf8ValidF]
      have hs := utf8Step_snd_length b l
      have heq := ih f (utf8Step b l).2 (by simp at h1; omega) (by simp at h2; omega)
      rw [heq]

/-- Unfolding equation for utf8Valid on a nonempty list. -/
theorem utf8Valid_cons (b : Nat) (l : List Nat) :
    utf8Valid (b :: l) = (utf8StepOk b l && utf8Valid (utf8Step b l).2) := by
  show utf8ValidF (b :: l).length (b :: l) = _
  simp only [List.length_cons, utf8ValidF]
  rw [utf8ValidF_congr l.length (utf8Step b l).2.length (utf8Step b l).2
    (utf8Step_snd_length b l) (le_refl _)]
  rfl


set_option maxHeartbeats 2000000 in
/-- A valid unit recombines to the input it consumed. -/
theorem utf8Step_recombine (b : Nat) (l : List Nat) (h : utf8StepOk b l = true) :
    (utf8Step b l).1 ++ (utf8Step b l).2 = b :: l := by
  rcases l with _ | ⟨c, _ | ⟨d, _ | ⟨e, l4⟩⟩⟩ <;>
    simp only [utf8Step, utf8StepOk] at h ⊢ <;>
    repeat' (first | split at h | split)
  all_goals simp_all [replChar, isCont, cont3ok, cont4ok]

set_option maxHeartbeats 2000000 in
/-- Appending input after a valid unit changes neither the emitted bytes
nor the consumption. -/
theorem utf8Step_append (b : Nat) (l m : List Nat) (h : utf8StepOk b l = true) :
    utf8Step b (l ++ m) = ((utf8Step b l).1, (utf8Step b l).2 ++ m) := by
  rcases l with _ | ⟨c, _ | ⟨d, _ | ⟨e, l4⟩⟩⟩ <;>
    simp only [utf8Step, utf8StepOk, List.cons_append, List.nil_append] at h ⊢ <;>
    repeat' (first | split at h | split)
  all_goals simp_all [replChar, isCont, cont3ok, cont4ok]

/-- A valid byte list decodes in place even with arbitrary bytes
appended: the decoder consumes it unchanged before looking at the rest
(induction step over a length bound). -/
theorem utf8Lossy_append_aux (n : Nat) :
    ∀ (a m : List Nat), a.length ≤ n → utf8Valid a = true →
      utf8Lossy (a ++ m) = a ++ utf8Lossy m := by
  induction n with
  | zero =>
    intro a m hlen _
    match a with
    | [] => simp
    | _ :: _ => simp at hlen
  | succ g ih =>
    intro a m hlen hv
    match a with
    | [] => simp
    | b :: l =>
      rw [utf8Valid_cons] at hv
      have hok : utf8StepOk b l = true := by
        cases hs : utf8StepOk b l <;> simp [hs] at hv <;> rfl
      have hv2 : utf8Valid (utf8Step b l).2 = true := by
        simp [hok] at hv; exact hv
      have hs2 : (utf8Step b l).2.length ≤ g := by
        have := utf8Step_snd_length b l
        simp at hlen; omega
      calc utf8Lossy ((b :: l) ++ m)
          = utf8Lossy (b :: (l ++ m)) := by simp
        _ = (utf8Step b (l ++ m)).1 ++ utf8Lossy (utf8Step b (l ++ m)).2 :=
            utf8Lossy_cons b (l ++ m)
        _ = (utf8Step b l).1 ++ utf8Lossy ((utf8Step b l).2 ++ m) := by
            rw [utf8Step_append b l m hok]
        _ = (utf8Step b l).1 ++ ((utf8Step b l).2 ++ utf8Lossy m) := by
            rw [ih (utf8Step b l).2 m hs2 hv2]
        _ = ((utf8Step b l).1 ++ (utf8Step b l).2) ++ utf8Lossy m := by
            rw [List.append_assoc]
        _ = (b :: l) ++ utf8Lossy m := by rw [utf8Step_recombine b l hok]

/-- Valid UTF-8 input is a fixed point of the lossy conversion, also with
a tail appended. -/
theorem utf8Lossy_append_of_valid (a m : List Nat) (h : utf8Valid a = true) :
    utf8Lossy (a ++ m) = a ++ utf8Lossy m :=
  utf8Lossy_append_aux a.length a m (le_refl _) h

/-- The zero padding of the read buffer is ASCII and survives the lossy
conversion unchanged. -/
theorem utf8Lossy_replicate_zero (k : Nat) :
    utf8Lossy (List.replicate k 0) = List.replicate k 0 := by
  induction k with
  | zero => rfl
  | succ j ih =>
    rw [List.replicate_succ, utf8Lossy_cons]
    have hstep : utf8Step 0 (List.replicate j 0) = ([0], List.replicate j 0) := by
      simp [utf8Step]
    rw [hstep]
    simp [ih]

/-- When the download loop ends on a zero-byte read (flag true), the
received count is still short of the declared size. -/
theorem downloadLoop_disconnect_lt (reads : List (List Nat)) :
    ∀ received size r, downloadLoop reads received size = some (r, true) → r < size := by
  induction reads with
  | nil =>
    intro received size r h
    simp only [downloadLoop] at h
    split at h
    · exact Option.noConfusion h
    · simp at h
  | cons r0 rest ih =>
    intro received size r h
    simp only [downloadLoop] at h
    split at h
    · split at h
      · simp at h
        omega
      · exact ih _ _ _ h
    · simp at h

/-- Splitting a list at CHUNK_SIZE preserves its length. -/
theorem take_drop_length_split (file : List Nat) :
    (file.take CHUNK_SIZE).length + (file.drop CHUNK_SIZE).length = file.length := by
  rw [List.length_take, List.length_drop]
  omega

/-- The upload loop never writes more bytes than the file holds. -/
theorem uploadChunks_sum_le (k : Nat) :
    ∀ file : List Nat, (((uploadChunks file k).map List.length).sum ≤ file.length) := by
  induction k with
  | zero => intro file; simp [uploadChunks]
  | succ j ih =>
    intro file
    simp only [uploadChunks]
    split
    · simp
    · simp only [List.map_cons, List.sum_cons]
      have h1 := ih (file.drop CHUNK_SIZE)
      have h2 := take_drop_length_split file
      omega

/-- With enough iterations granted, the upload loop writes the whole
file. -/
theorem uploadChunks_sum_eq (k : Nat) :
    ∀ file : List Nat, file.length ≤ k * CHUNK_SIZE →
      (((uploadChunks file k).map List.length).sum = file.length) := by
  induction k with
  | zero =>
    intro file h
    simp at h
    simp [uploadChunks, h]
  | succ j ih =>
    intro file h
    simp only [uploadChunks]
    split
    · rename_i hemp
      simp only [List.isEmpty_iff, List.take_eq_nil_iff] at hemp
      have hfile : file = [] := by
        rcases hemp with h0 | h0
        · exact absurd h0 (by simp [CHUNK_SIZE])
        · exact h0
      simp [hfile]
    · simp only [List.map_cons, List.sum_cons]
      have h1 : (((uploadChunks (file.drop CHUNK_SIZE) j).map List.length).sum =
          (file.drop CHUNK_SIZE).length) := by
        apply ih
        rw [List.length_drop]
        simp only [CHUNK_SIZE] at *
        omega
      have h2 := take_drop_length_split file
      omega

/-- chunk_count grants enough iterations to cover the whole file. -/
theorem length_le_chunk_count_mul (n : Nat) : n ≤ chunk_count n * CHUNK_SIZE := by
  simp only [chunk_count, CHUNK_SIZE]
  split <;> omega

/-- A prefix sum of naturals is bounded by the full sum. -/
theorem sum_take_le_sum (L : List Nat) (i : Nat) : (L.take i).sum ≤ L.sum := by
  conv_rhs => rw [← List.take_append_drop i L]
  rw [List.sum_append]
  omega

/-! ## Claim theorems -/

/-- C3: the username validator, whose regex interior class
[a-zA-Z0-9\.]{0,8} places no restriction on where periods sit, accepts
"a..b" even though the claim (and the rule text the program itself
prints) demands that two consecutive periods be rejected.  This evaluates
the code at the failing input of the claim. -/
theorem validate_username_accepts_consecutive_periods :
    validate_username "a..b" = true := by decide

/-- C4: the username validator accepts "ab.c" and "a" and rejects ".abc"
(leading period) and "abcdefghijk" (eleven characters, above the
ten-character maximum). -/
theorem validate_username_examples :
    validate_username "ab.c" = true ∧ validate_username "a" = true ∧
    validate_username ".abc" = false ∧ validate_username "abcdefghijk" = false := by
  decide

/-- C6: evaluating login at the failing input of the claim: the operator
types alice (read_line stores the raw line with its newline), the
username shadow is trimmed, validated and transmitted as alice, the
server replies UsernameOk — and login returns the raw outer buffer with
the newline, not the trimmed string it transmitted, because the trimmed
shadow goes out of scope at the end of the loop body. -/
theorem login_returns_raw_buffer :
    login ["alice\n".data] [ServerResponse.UsernameOk] =
      some ("alice\n".data, ["alice".data]) ∧
    "alice\n".data ≠ "alice".data := by decide

/-- C7: during upload, across all iterations of the chunk loop, the
cumulative number of payload bytes written to the connection never
exceeds the size declared in the metadata frame (the file length captured
by fs::metadata), and the loop in fact writes exactly that many bytes
when the file is unchanged underneath it. -/
theorem upload_never_exceeds_declared_size (file : List Nat) (i : Nat) :
    ((((uploadSent file).map List.length).take i).sum ≤ file.length) ∧
    (((uploadSent file).map List.length).sum = file.length) := by
  have htotal : (((uploadSent file).map List.length).sum = file.length) :=
    uploadChunks_sum_eq (chunk_count file.length) file (length_le_chunk_count_mul _)
  refine ⟨?_, htotal⟩
  calc (((uploadSent file).map List.length).take i).sum
      ≤ ((uploadSent file).map List.length).sum := sum_take_le_sum _ i
    _ = file.length := htotal

/-- C8: for every size, the computed chunk count equals
floor(size / CHUNK_SIZE) plus one exactly when size mod CHUNK_SIZE is
nonzero; with CHUNK_SIZE = 1024 this gives chunk_count 2500 = 3,
chunk_count 1024 = 1 and chunk_count 0 = 0. -/
theorem chunk_count_is_ceiling_div :
    (∀ s : Nat, chunk_count s = s / CHUNK_SIZE + (if s % CHUNK_SIZE ≠ 0 then 1 else 0))
  ∧ chunk_count 2500 = 3 ∧ chunk_count 1024 = 1 ∧ chunk_count 0 = 0 := by
  refine ⟨fun s => ?_, by decide, by decide, by decide⟩
  simp [chunk_count, Nat.pos_iff_ne_zero]

/-- C9: whenever the round-tripped surface form of the parsed command
fails validate_command, the src/src/main.rs loop iteration stops before
any bytes are written to the connection (only the literal exit line
bypasses validation, and it is its own command of the grammar); the five
grammatical forms pass the validator and "ok bob", which lacks the @,
fails it. -/
theorem local_validation_blocks_send (fileOk : String → Bool) (input : String) :
    (validate_command (Command.toText (Command.parse input)) = false → input ≠ "exit" →
      clientSendStep fileOk input = SendDecision.rejectedLocally)
  ∧ clientSendStep fileOk "ok bob" = SendDecision.rejectedLocally
  ∧ validate_command "list" = true
  ∧ validate_command "reqs" = true
  ∧ validate_command "glide notes.txt @bob" = true
  ∧ validate_command "ok @bob" = true
  ∧ validate_command "no @bob" = true
  ∧ validate_command "ok bob" = false := by
  refine ⟨?_, ?_, by decide, by decide, by decide, by decide, by decide, by decide⟩
  · intro hv hexit
    simp [clientSendStep, hexit, hv]
  · have h1 : validate_command (Command.toText (Command.parse "ok bob")) = false := by decide
    have h2 : "ok bob" ≠ "exit" := by decide
    simp [clientSendStep, h2, h1]

/-- C9 witness: the theorem applied at the concrete rejected input
"ok bob" with a filesystem that approves every path. -/
theorem local_validation_blocks_send_witness :
    clientSendStep (fun _ => true) "ok bob" = SendDecision.rejectedLocally :=
  (local_validation_blocks_send (fun _ => true) "ok bob").1 (by decide) (by decide)

/-- C1 counterexample: a concrete download in which the metadata frame
declares two bytes, one byte arrives and then a read returns zero bytes.
The Command::Ok branch prints the disconnect notice, breaks, and falls
through to the completion message: the run ends in the ordinary
transferComplete outcome with received = 1 < 2, and no ConnectionClosed
error is raised, contradicting the claim that the transfer terminates
abnormally by raising ConnectionClosed. -/
theorem ok_download_zero_read_reports_complete :
    okCommandPath [[0x66, 0x3A, 0x32], [65], []] =
      some (OkOutcome.transferComplete 1 true) ∧ 1 < 2 := by decide

/-- C1 (amended): when a zero-byte read strikes the download loop before
received reaches the declared size, the loop stops with the disconnect
flag set and a received count strictly below size — the destination file
is truncated — but the branch returns normally (transferComplete), only
printing a disconnect notice before the completion message; no
ConnectionClosed error is raised. -/
theorem ok_download_disconnect_truncates (meta : List Nat) (rest : List (List Nat))
    (name : List Nat) (size r : Nat)
    (hm : extract_metadata meta = Except.ok (name, size))
    (h : okCommandPath (meta :: rest) = some (OkOutcome.transferComplete r true)) :
    r < size := by
  simp only [okCommandPath] at h
  split at h
  · simp at h
  · rw [hm] at h
    rcases Option.map_eq_some'.1 h with ⟨⟨r', d⟩, hd, heq⟩
    simp only [OkOutcome.transferComplete.injEq] at heq
    obtain ⟨h1, h2⟩ := heq
    subst h1
    subst h2
    exact downloadLoop_disconnect_lt rest 0 size _ hd

/-- C1 witness: the amended theorem applied to the concrete truncated
download of the counterexample. -/
theorem ok_download_disconnect_truncates_witness :
    extract_metadata [0x66, 0x3A, 0x32] = Except.ok ([0x66], 2) ∧
    okCommandPath [[0x66, 0x3A, 0x32], [65], []] =
      some (OkOutcome.transferComplete 1 true) ∧ 1 < 2 :=
  ⟨by decide, by decide,
    ok_download_disconnect_truncates [0x66, 0x3A, 0x32] [[65], []] [0x66] 2 1
      (by decide) (by decide)⟩

/-- C2 counterexample: a List command answered by OkSuccess (an
unexpected variant) makes main return Ok, ending the process, and an ok
command whose metadata frame has no colon makes main return an error —
in both cases the session loop does not reach its next iteration,
contradicting the claim that such recoverable errors abort only the
in-flight command. -/
theorem dispatcher_mismatch_terminates_process :
    handle_response Command.List ServerResponse.OkSuccess [] =
      some LoopOutcome.exitProcessOk ∧
    handle_response (Command.Ok "bob") ServerResponse.OkSuccess [[0x6D]] =
      some LoopOutcome.exitProcessErr := by decide

/-- C2 (amended): in the src/main.rs dispatcher an UnknownCommand reply
is the only peer response that merely aborts the in-flight command; an
unexpected variant answering List, Requests or Glide terminates the
process with a normal exit, and a malformed metadata frame during an ok
command terminates it with an error. -/
theorem dispatcher_error_paths (resp : ServerResponse) (reads : List (List Nat))
    (p u w : String) (cmd : Command) :
    (resp ≠ ServerResponse.UnknownCommand →
      (∀ us, resp ≠ ServerResponse.ConnectedUsers us) →
      handle_response Command.List resp reads = some LoopOutcome.exitProcessOk)
  ∧ (resp ≠ ServerResponse.UnknownCommand →
      (∀ rq, resp ≠ ServerResponse.IncomingRequests rq) →
      handle_response Command.Requests resp reads = some LoopOutcome.exitProcessOk)
  ∧ (resp ≠ ServerResponse.UnknownCommand → resp ≠ ServerResponse.GlideRequestSent →
      handle_response (Command.Glide p u) resp reads = some LoopOutcome.exitProcessOk)
  ∧ handle_response cmd ServerResponse.UnknownCommand reads = some LoopOutcome.nextIteration
  ∧ (resp ≠ ServerResponse.UnknownCommand → ∀ meta rest, reads = meta :: rest →
      meta.length ≠ 0 → (∃ e, extract_metadata meta = Except.error e) →
      handle_response (Command.Ok w) resp reads = some LoopOutcome.exitProcessErr) := by
  refine ⟨?_, ?_, ?_, ?_, ?_⟩
  · intro h1 h2
    simp only [handle_response, if_neg h1]
  · intro h1 h2
    simp only [handle_response, if_neg h1]
  · intro h1 h2
    simp only [handle_response, if_neg h1, if_neg h2]
  · simp [handle_response]
  · intro h1 meta rest hr hz he
    obtain ⟨e, he⟩ := he
    simp only [handle_response, if_neg h1, hr, okCommandPath, if_neg hz, he]

/-- C2 witness: the amended theorem applied at concrete mismatched
responses and a concrete malformed metadata frame. -/
theorem dispatcher_error_paths_witness :
    (handle_response Command.List ServerResponse.GlideRequestSent [] =
      some LoopOutcome.exitProcessOk)
  ∧ (handle_response Command.Requests ServerResponse.GlideRequestSent [] =
      some LoopOutcome.exitProcessOk)
  ∧ (handle_response (Command.Glide "a" "b") ServerResponse.OkSuccess [] =
      some LoopOutcome.exitProcessOk)
  ∧ (handle_response (Command.No "x") ServerResponse.UnknownCommand [] =
      some LoopOutcome.nextIteration)
  ∧ (handle_response (Command.Ok "u") ServerResponse.GlideRequestSent [[0x6D]] =
      some LoopOutcome.exitProcessErr) :=
  ⟨(dispatcher_error_paths ServerResponse.GlideRequestSent [] "a" "b" "u"
      (Command.No "x")).1 (by decide)
      (fun us h => ServerResponse.noConfusion h),
   (dispatcher_error_paths ServerResponse.GlideRequestSent [] "a" "b" "u"
      (Command.No "x")).2.1 (by decide)
      (fun rq h => ServerResponse.noConfusion h),
   (dispatcher_error_paths ServerResponse.OkSuccess [] "a" "b" "u"
      (Command.No "x")).2.2.1 (by decide) (by decide),
   (dispatcher_error_paths ServerResponse.OkSuccess [] "a" "b" "u"
      (Command.No "x")).2.2.2.1,
   (dispatcher_error_paths ServerResponse.GlideRequestSent [[0x6D]] "a" "b" "u"
      (Command.No "x")).2.2.2.2 (by decide) [0x6D] [] rfl (by decide)
      ⟨"Invalid metadata format", by decide⟩⟩

set_option maxRecDepth 40000 in
/-- C5 counterexample: the byte sequence FF 61 62 63 is not valid text
(utf8Valid rejects it), yet decoding the received frame does not fail:
the lossy conversion substitutes a replacement character and the frame
classifies successfully, contradicting the claim that decoding fails with
MalformedFrame when the byte sequence is not valid text. -/
theorem decode_invalid_text_succeeds :
    utf8Valid [0xFF, 0x61, 0x62, 0x63] = false ∧
    get_server_response [0xFF, 0x61, 0x62, 0x63] =
      some (Except.ok ServerResponse.UnknownCommand) := by decide

/-- C5 (amended): decoding a received frame never fails on invalid text —
the lossy conversion substitutes replacement characters and classification
always yields a value when the byte-index slice lands on a character
boundary (a non-boundary slice is a panic, not a MalformedFrame error) —
while the metadata sub-frame fails exactly when splitting the decoded
text on the colon does not yield two fields or when the trimmed size
field does not parse as a u64. -/
theorem decode_failure_conditions (bytes readData : List Nat) (hne : readData ≠ []) :
    ((∃ e, extract_metadata bytes = Except.error e) ↔
      (((utf8Lossy bytes).splitOn 0x3A).length ≠ 2 ∨
        ∃ p q, (utf8Lossy bytes).splitOn 0x3A = [p, q] ∧ parseU64 (trimBytes q) = none))
  ∧ (get_server_response readData = none ∨
      ∃ r, get_server_response readData = some (Except.ok r)) := by
  constructor
  · simp only [extract_metadata]
    rcases hs : (utf8Lossy bytes).splitOn 0x3A with _ | ⟨p, _ | ⟨q, _ | ⟨x, xs⟩⟩⟩
    · simp
    · simp
    · rcases hp : parseU64 (trimBytes q) with _ | n
      · simp only [hp]
        simp
        exact ⟨p, q, ⟨rfl, rfl⟩, hp⟩
      · simp [hp]
    · simp
  · simp only [get_server_response]
    have hlen : ¬ readData.length = 0 := by
      intro h0
      exact hne (List.length_eq_zero.1 h0)
    rw [if_neg hlen]
    split
    · right
      exact ⟨_, rfl⟩
    · left
      rfl

set_option maxRecDepth 40000 in
/-- C5 witness: the amended theorem applied at a one-byte metadata frame
with no colon and a one-byte well-formed read. -/
theorem decode_failure_conditions_witness :
    ((∃ e, extract_metadata [0x61] = Except.error e) ↔
      (((utf8Lossy [0x61]).splitOn 0x3A).length ≠ 2 ∨
        ∃ p q, (utf8Lossy [0x61]).splitOn 0x3A = [p, q] ∧ parseU64 (trimBytes q) = none))
  ∧ (get_server_response [0x48] = none ∨
      ∃ r, get_server_response [0x48] = some (Except.ok r)) :=
  decode_failure_conditions [0x61] [0x48] (by decide)

set_option maxRecDepth 40000 in
/-- C10 counterexample: a read that delivers the single byte FF.  The
lossy conversion of the padded buffer begins with the three-byte
replacement character, so the byte-range index [..1] falls inside that
character and the slice panics: get_server_response reaches neither a
ServerResponse nor an error, contradicting the claim that classification
is total for every read of length between 1 and CHUNK_SIZE. -/
theorem get_server_response_panics_on_invalid_utf8 :
    get_server_response [0xFF] = none := by decide

/-- C10 (amended): classification is total for every nonempty read of at
most CHUNK_SIZE bytes whose content is valid UTF-8: the lossy conversion
then leaves the bytes in place, the byte-count slice index lands on a
character boundary, and get_server_response returns a classified value;
for invalid UTF-8 the lossy conversion can move byte offsets and the
slice can panic. -/
theorem get_server_response_total_on_valid_utf8 (readData : List Nat)
    (hv : utf8Valid readData = true) (h1 : 0 < readData.length)
    (h2 : readData.length ≤ CHUNK_SIZE) :
    ∃ r, get_server_response readData = some (Except.ok r) := by
  unfold get_server_response
  have hne : ¬ readData.length = 0 := by omega
  rw [if_neg hne]
  have hlossy : utf8Lossy (readData ++ List.replicate (CHUNK_SIZE - readData.length) 0) =
      readData ++ List.replicate (CHUNK_SIZE - readData.length) 0 := by
    rw [utf8Lossy_append_of_valid _ _ hv, utf8Lossy_replicate_zero]
  simp only [hlossy]
  have hb : isCharBoundary (readData ++ List.replicate (CHUNK_SIZE - readData.length) 0)
      readData.length = true := by
    rcases hm : CHUNK_SIZE - readData.length with _ | k
    · have hget : (readData ++ List.replicate (0 : Nat) (0 : Nat)).get? readData.length = none := by
        simp [List.get?_eq_none]
      simp [isCharBoundary, hget]
    · have hget : (readData ++ List.replicate (k + 1) 0)[readData.length]? = some 0 := by
        rw [List.getElem?_append_right (le_refl _)]
        simp
      simp [isCharBoundary, List.get?_eq_getElem?, hget, isCont]
  rw [hb]
  simp

/-- C10 witness: the amended theorem applied at the one-byte ASCII read
H, which is valid UTF-8 and classifies without a panic. -/
theorem get_server_response_total_on_valid_utf8_witness :
    ∃ r, get_server_response [0x48] = some (Except.ok r) :=
  get_server_response_total_on_valid_utf8 [0x48] (by decide) (by decide) (by decide)

end Glide
